import Mathlib

/-!
# eye-games: `src/lib/webgazer-loader.js`

A shallow embedding of `loadWebGazer` together with the part of the browser
platform it touches: the global binding `window.webgazer`, the children of
`document.body`, the script element under construction, and the promise
created by `new Promise(...)`.

Modelling conventions.

* `JSVal` is the universe of JavaScript values as far as the loader can
  tell them apart: it only ever tests a value for truthiness and passes it
  on unchanged.
* A promise is recorded by what its `resolve` / `reject` function was first
  called with (`resolved v`, `rejected e`); later calls of either function
  on the same promise do nothing, as in ECMAScript.
* The `async` wrapper of the exported function returns a promise that takes
  over the outcome of the inner `new Promise(...)`; the operation returned to
  the caller is identified with that inner promise.
* The page is a browser page with a `document.body`; load and error events
  are delivered to nodes that are children of `document.body`.
-/

namespace EyeGames

/-- JavaScript values. Numbers are represented by an integer, negative zero
and NaN, which is all the loader's truthiness test can distinguish. -/
inductive JSVal where
  | undefined
  | null
  | bool (b : Bool)
  | num (n : Int)
  | negZero
  | nan
  | bigint (n : Int)
  | str (s : String)
  | obj (id : Nat)
  deriving DecidableEq, Repr

/-- ECMAScript `ToBoolean`, the test performed by `if (window.webgazer)`. -/
def truthy : JSVal → Bool
  | .undefined => false
  | .null => false
  | .bool b => b
  | .num n => n != 0
  | .negZero => false
  | .nan => false
  | .bigint n => n != 0
  | .str s => s != ""
  | .obj _ => true

/-- The state of a promise: pending, or what it was first settled with. -/
inductive PromiseState where
  | pending
  | resolved (v : JSVal)
  | rejected (e : JSVal)
  deriving DecidableEq, Repr

/-- The two closures the loader registers on its script element. Each one
captures a settling function of the promise with identifier `p`:
`resolveGlobal p` is `() => resolve(window.webgazer)`, and `rejectWith p` is
the function `reject` itself. -/
inductive Callback where
  | resolveGlobal (p : Nat)
  | rejectWith (p : Nat)
  deriving DecidableEq, Repr

/-- The promise a callback settles. -/
def Callback.target : Callback → Nat
  | .resolveGlobal p => p
  | .rejectWith p => p

/-- A DOM element, with the properties the loader assigns. -/
structure Element where
  tagName : String
  src : String
  async : Bool
  onload : Option Callback
  onerror : Option Callback
  deriving DecidableEq, Repr

/-- The promises an element's registered callbacks can settle. -/
def Element.targets (e : Element) : List Nat :=
  (e.onload.map Callback.target).toList ++ (e.onerror.map Callback.target).toList

/-- The browser state the loader reads and writes. `webgazer = none` means
that the binding `window.webgazer` does not exist. -/
structure World where
  webgazer : Option JSVal
  body : List Element
  promises : List PromiseState
  deriving DecidableEq, Repr

/-- The value of the expression `window.webgazer`: a missing property reads
as `undefined`. -/
def readGlobal (w : World) : JSVal :=
  w.webgazer.getD .undefined

/-- Settle promise `p` with outcome `s`; a promise that is already settled,
or an identifier that names no promise, is left alone. -/
def settle (w : World) (p : Nat) (s : PromiseState) : World :=
  match w.promises[p]? with
  | some .pending => { w with promises := w.promises.set p s }
  | _ => w

/-- The function `resolve` of promise `p`. -/
def resolve (w : World) (p : Nat) (v : JSVal) : World :=
  settle w p (.resolved v)

/-- The function `reject` of promise `p`. -/
def reject (w : World) (p : Nat) (e : JSVal) : World :=
  settle w p (.rejected e)

/-- The hardcoded source of the script. -/
def webgazerUrl : String := "https://webgazer.cs.brown.edu/webgazer.js"

/-- The result of `document.createElement(tag)`: a detached element with no
source and no handlers. The async flag is recorded as unset until the loader
assigns it, so the flag of the attached node is the loader's own assignment. -/
def createElement (tag : String) : Element :=
  { tagName := tag, src := "", async := false, onload := none, onerror := none }

/-- The statements of the handle-absent branch, lines 5 to 10. -/
inductive Stmt where
  | createScript
  | setSrc
  | setAsync
  | setOnload
  | setOnerror
  | appendChild
  deriving DecidableEq, Repr

/-- The executor's frame: the browser state and the local `script`, which is
unbound until line 5 has run. -/
structure Frame where
  world : World
  script : Option Element
  deriving DecidableEq, Repr

/-- Update the element bound to `script`. -/
def Frame.assign (f : Frame) (g : Element → Element) : Frame :=
  { f with script := f.script.map g }

/-- Execute one statement of the handle-absent branch in the executor of
promise `p`. -/
def exec (p : Nat) (f : Frame) : Stmt → Frame
  | .createScript => { f with script := some (createElement "script") }
  | .setSrc => f.assign fun e => { e with src := webgazerUrl }
  | .setAsync => f.assign fun e => { e with async := true }
  | .setOnload => f.assign fun e => { e with onload := some (.resolveGlobal p) }
  | .setOnerror => f.assign fun e => { e with onerror := some (.rejectWith p) }
  | .appendChild =>
    match f.script with
    | some e => { f with world := { f.world with body := f.world.body ++ [e] } }
    | none => f

/-- Lines 5 to 10 in source order. -/
def absentBranch : List Stmt :=
  [.createScript, .setSrc, .setAsync, .setOnload, .setOnerror, .appendChild]

/-- Execute a list of statements in order. -/
def execAll (p : Nat) (f : Frame) (ss : List Stmt) : Frame :=
  ss.foldl (exec p) f

/-- The function `loadWebGazer`: it allocates a promise, runs the executor and
returns the new state together with the identifier of the promise. -/
def loadWebGazer (w : World) : World × Nat :=
  let p := w.promises.length
  let w1 : World := { w with promises := w.promises ++ [.pending] }
  if truthy (readGlobal w1) then
    (resolve w1 p (readGlobal w1), p)
  else
    ((execAll p { world := w1, script := none } absentBranch).world, p)

/-- The script element as the loader appends it for promise `p`. -/
def scriptNode (p : Nat) : Element :=
  { tagName := "script", src := webgazerUrl, async := true,
    onload := some (.resolveGlobal p), onerror := some (.rejectWith p) }

/-- The events the platform delivers to a script element; an error event
carries the value handed to the error handler. -/
inductive Event where
  | load
  | error (e : JSVal)
  deriving DecidableEq, Repr

/-- Invoke a registered handler with argument `arg`. -/
def runCallback (w : World) (arg : JSVal) : Option Callback → World
  | none => w
  | some (.resolveGlobal p) => resolve w p (readGlobal w)
  | some (.rejectWith p) => reject w p arg

/-- Deliver event `ev` to the child of `document.body` at index `i`. -/
def fire (w : World) (i : Nat) (ev : Event) : World :=
  match w.body[i]? with
  | none => w
  | some node =>
    match ev with
    | .load => runCallback w .undefined node.onload
    | .error e => runCallback w e node.onerror

/-- What can happen on the page: a call of `loadWebGazer`, the delivery of an
event to an attached node, and a change of `window.webgazer` (by the loaded
script or by any other code; `none` deletes the binding). -/
inductive Action where
  | call
  | fire (i : Nat) (ev : Event)
  | setGlobal (g : Option JSVal)
  deriving DecidableEq, Repr

/-- One step of the page. -/
def step (w : World) : Action → World
  | .call => (loadWebGazer w).1
  | .fire i ev => fire w i ev
  | .setGlobal g => { w with webgazer := g }

/-- A sequence of steps. -/
def run (w : World) (as : List Action) : World :=
  as.foldl step w

/-- Whether an action is the delivery of an event to node `k`. -/
def Action.firesAt (k : Nat) : Action → Bool
  | .fire i _ => i == k
  | _ => false

/-- Every callback registered on an attached node settles a promise that
exists. -/
def WellFormed (w : World) : Prop :=
  ∀ e ∈ w.body, ∀ q ∈ e.targets, q < w.promises.length

/-- A page on which nothing has been attached or requested yet. -/
def freshPage (g : Option JSVal) : World :=
  { webgazer := g, body := [], promises := [] }

/-- What the delivery of an event to the script node of a pending operation
settles that operation with, in state `w`. -/
def Event.outcome (w : World) : Event → PromiseState
  | .load => .resolved (readGlobal w)
  | .error e => .rejected e

/-- The state after two calls of `loadWebGazer` with nothing in between. -/
def twoCalls (w : World) : World :=
  (loadWebGazer (loadWebGazer w).1).1

/-- The operation returned by the first of the two calls. -/
def firstOp (w : World) : Nat :=
  (loadWebGazer w).2

/-- The operation returned by the second of the two calls. -/
def secondOp (w : World) : Nat :=
  (loadWebGazer (loadWebGazer w).1).2

/-- The executor's frame after the first `n` statements of the handle-absent
branch, in a call made in state `w`. -/
def frameAfter (w : World) (n : Nat) : Frame :=
  execAll w.promises.length
    { world := { w with promises := w.promises ++ [.pending] }, script := none }
    (absentBranch.take n)

/-- The run of C5 up to the load event: one call, the loaded script sets
`window.webgazer` to `h`, and the load event of the new node is delivered. -/
def loadedPage (w : World) (h : JSVal) : World :=
  run w [.call, .setGlobal (some h), .fire w.body.length .load]

/-- The state after `n` further calls on the loaded page. -/
def furtherCalls (w : World) (h : JSVal) (n : Nat) : World :=
  run (loadedPage w h) (List.replicate n .call)

/-- Promise `p` is pending, the node at index `k` of `document.body` is the
script element appended for `p`, and no other attached node has a callback
that settles `p`. -/
structure Owns (w : World) (p k : Nat) : Prop where
  wf : WellFormed w
  pending : w.promises[p]? = some .pending
  node : w.body[k]? = some (scriptNode p)
  only : ∀ i e, w.body[i]? = some e → i ≠ k → p ∉ e.targets

/-- The falsy values named for the presence check. -/
def listedFalsy : List JSVal :=
  [.undefined, .null, .bool false, .num 0, .nan, .str ""]

/-! ## The two branches of `loadWebGazer` -/

theorem readGlobal_with_promises (w : World) (ps : List PromiseState) :
    readGlobal { w with promises := ps } = readGlobal w := rfl

theorem settle_fresh (w : World) (s : PromiseState) :
    settle { w with promises := w.promises ++ [.pending] } w.promises.length s
      = { w with promises := w.promises ++ [s] } := by
  simp [settle]

theorem loadWebGazer_of_truthy (w : World) (h : truthy (readGlobal w) = true) :
    loadWebGazer w
      = ({ w with promises := w.promises ++ [.resolved (readGlobal w)] }, w.promises.length) := by
  simp [loadWebGazer, readGlobal_with_promises, h, resolve, settle_fresh]

theorem loadWebGazer_of_falsy (w : World) (h : truthy (readGlobal w) = false) :
    loadWebGazer w
      = ({ w with body := w.body ++ [scriptNode w.promises.length],
                  promises := w.promises ++ [.pending] }, w.promises.length) := by
  simp [loadWebGazer, readGlobal_with_promises, h, execAll, absentBranch, exec, Frame.assign,
    createElement, scriptNode]

/-! ## Frame facts for settling a promise and for delivering an event -/

theorem settle_body (w : World) (p : Nat) (s : PromiseState) :
    (settle w p s).body = w.body := by
  unfold settle; split <;> rfl

theorem settle_webgazer (w : World) (p : Nat) (s : PromiseState) :
    (settle w p s).webgazer = w.webgazer := by
  unfold settle; split <;> rfl

theorem settle_length (w : World) (p : Nat) (s : PromiseState) :
    (settle w p s).promises.length = w.promises.length := by
  unfold settle; split <;> simp

theorem settle_other (w : World) (p q : Nat) (s : PromiseState) (h : q ≠ p) :
    (settle w p s).promises[q]? = w.promises[q]? := by
  unfold settle; split
  · simp [List.getElem?_set_ne (Ne.symm h)]
  · rfl

theorem settle_pending (w : World) (p : Nat) (s : PromiseState)
    (h : w.promises[p]? = some .pending) :
    (settle w p s).promises[p]? = some s := by
  have hlt : p < w.promises.length := by
    rcases Nat.lt_or_ge p w.promises.length with hl | hl
    · exact hl
    · rw [List.getElem?_eq_none hl] at h; cases h
  simp [settle, h, List.getElem?_set_self hlt]

theorem runCallback_body (w : World) (arg : JSVal) (cb : Option Callback) :
    (runCallback w arg cb).body = w.body := by
  rcases cb with _ | ⟨p | p⟩ <;> simp [runCallback, resolve, reject, settle_body]

theorem runCallback_webgazer (w : World) (arg : JSVal) (cb : Option Callback) :
    (runCallback w arg cb).webgazer = w.webgazer := by
  rcases cb with _ | ⟨p | p⟩ <;> simp [runCallback, resolve, reject, settle_webgazer]

theorem runCallback_length (w : World) (arg : JSVal) (cb : Option Callback) :
    (runCallback w arg cb).promises.length = w.promises.length := by
  rcases cb with _ | ⟨p | p⟩ <;> simp [runCallback, resolve, reject, settle_length]

theorem runCallback_other (w : World) (arg : JSVal) (cb : Option Callback) (q : Nat)
    (h : q ∉ (cb.map Callback.target).toList) :
    (runCallback w arg cb).promises[q]? = w.promises[q]? := by
  rcases cb with _ | ⟨p | p⟩
  · rfl
  · have hq : q ≠ p := by simpa [Callback.target] using h
    simp [runCallback, resolve, settle_other _ _ _ _ hq]
  · have hq : q ≠ p := by simpa [Callback.target] using h
    simp [runCallback, reject, settle_other _ _ _ _ hq]

theorem fire_body (w : World) (i : Nat) (ev : Event) : (fire w i ev).body = w.body := by
  unfold fire; split
  · rfl
  · cases ev <;> simp [runCallback_body]

theorem fire_webgazer (w : World) (i : Nat) (ev : Event) :
    (fire w i ev).webgazer = w.webgazer := by
  unfold fire; split
  · rfl
  · cases ev <;> simp [runCallback_webgazer]

theorem fire_length (w : World) (i : Nat) (ev : Event) :
    (fire w i ev).promises.length = w.promises.length := by
  unfold fire; split
  · rfl
  · cases ev <;> simp [runCallback_length]

theorem fire_other (w : World) (i : Nat) (ev : Event) (q : Nat)
    (h : ∀ e, w.body[i]? = some e → q ∉ e.targets) :
    (fire w i ev).promises[q]? = w.promises[q]? := by
  unfold fire; split
  · rfl
  · rename_i node hnode
    have hq := h node hnode
    simp only [Element.targets, List.mem_append, not_or] at hq
    cases ev
    · exact runCallback_other _ _ _ _ hq.1
    · exact runCallback_other _ _ _ _ hq.2

/-! ## Well-formedness is an invariant of the page -/

theorem scriptNode_targets (p : Nat) : (scriptNode p).targets = [p, p] := rfl

theorem wellFormed_freshPage (g : Option JSVal) : WellFormed (freshPage g) := by
  intro e he
  simp [freshPage] at he

theorem wellFormed_call (w : World) (h : WellFormed w) : WellFormed (loadWebGazer w).1 := by
  cases ht : truthy (readGlobal w)
  · rw [loadWebGazer_of_falsy w ht]
    intro e he q hq
    simp only [List.mem_append, List.mem_singleton, List.length_append, List.length_singleton]
      at he ⊢
    rcases he with he | he
    · exact Nat.lt_succ_of_lt (h e he q hq)
    · subst he
      simp [scriptNode_targets] at hq
      omega
  · rw [loadWebGazer_of_truthy w ht]
    intro e he q hq
    simp only [List.length_append, List.length_singleton]
    exact Nat.lt_succ_of_lt (h e he q hq)

theorem wellFormed_fire (w : World) (i : Nat) (ev : Event) (h : WellFormed w) :
    WellFormed (fire w i ev) := by
  intro e he q hq
  rw [fire_body] at he
  rw [fire_length]
  exact h e he q hq

theorem wellFormed_step (w : World) (a : Action) (h : WellFormed w) :
    WellFormed (step w a) := by
  cases a with
  | call => exact wellFormed_call w h
  | fire i ev => exact wellFormed_fire w i ev h
  | setGlobal g => exact h

theorem wellFormed_run (as : List Action) (w : World) (h : WellFormed w) :
    WellFormed (run w as) := by
  induction as generalizing w with
  | nil => exact h
  | cons a as ih => exact ih (step w a) (wellFormed_step w a h)

/-! ## Ownership: node `k` is the only way to settle the pending promise `p` -/

theorem Owns.lt_promises {w : World} {p k : Nat} (h : Owns w p k) : p < w.promises.length := by
  rcases Nat.lt_or_ge p w.promises.length with hl | hl
  · exact hl
  · have := h.pending
    rw [List.getElem?_eq_none hl] at this
    cases this

theorem Owns.lt_body {w : World} {p k : Nat} (h : Owns w p k) : k < w.body.length := by
  rcases Nat.lt_or_ge k w.body.length with hl | hl
  · exact hl
  · have := h.node
    rw [List.getElem?_eq_none hl] at this
    cases this

theorem owns_after_call (w : World) (hwf : WellFormed w) (ht : truthy (readGlobal w) = false) :
    Owns (loadWebGazer w).1 w.promises.length w.body.length := by
  refine ⟨wellFormed_call w hwf, ?_, ?_, ?_⟩
  · simp [loadWebGazer_of_falsy w ht]
  · simp [loadWebGazer_of_falsy w ht]
  · intro i e hi hne hmem
    rw [loadWebGazer_of_falsy w ht] at hi
    simp only at hi
    have hlt : i < w.body.length := by
      have h1 : i < (w.body ++ [scriptNode w.promises.length]).length := by
        rcases Nat.lt_or_ge i (w.body ++ [scriptNode w.promises.length]).length with hl | hl
        · exact hl
        · rw [List.getElem?_eq_none hl] at hi; cases hi
      simp only [List.length_append, List.length_singleton] at h1
      omega
    rw [List.getElem?_append_left hlt] at hi
    have := hwf e (List.getElem?_mem hi) _ hmem
    omega

theorem owns_call (w : World) (p k : Nat) (h : Owns w p k) : Owns (loadWebGazer w).1 p k := by
  have hp := h.lt_promises
  have hk := h.lt_body
  refine ⟨wellFormed_call w h.wf, ?_, ?_, ?_⟩
  · cases ht : truthy (readGlobal w)
    · simp [loadWebGazer_of_falsy w ht, List.getElem?_append_left hp, h.pending]
    · simp [loadWebGazer_of_truthy w ht, List.getElem?_append_left hp, h.pending]
  · cases ht : truthy (readGlobal w)
    · simp [loadWebGazer_of_falsy w ht, List.getElem?_append_left hk, h.node]
    · simp [loadWebGazer_of_truthy w ht, h.node]
  · intro i e hi hne
    cases ht : truthy (readGlobal w)
    · rw [loadWebGazer_of_falsy w ht] at hi
      simp only at hi
      rcases Nat.lt_or_ge i w.body.length with hl | hl
      · rw [List.getElem?_append_left hl] at hi
        exact h.only i e hi hne
      · rw [List.getElem?_append_right hl] at hi
        have he : e = scriptNode w.promises.length := by
          rcases Nat.eq_zero_or_pos (i - w.body.length) with h0 | h0
          · rw [h0] at hi; simpa using hi.symm
          · rw [List.getElem?_eq_none (show [scriptNode w.promises.length].length ≤ i - w.body.length from h0)] at hi; cases hi
        subst he
        simp [scriptNode_targets]
        omega
    · rw [loadWebGazer_of_truthy w ht] at hi
      exact h.only i e hi hne

theorem owns_fire (w : World) (p k i : Nat) (ev : Event) (h : Owns w p k) (hne : i ≠ k) :
    Owns (fire w i ev) p k := by
  refine ⟨wellFormed_fire w i ev h.wf, ?_, ?_, ?_⟩
  · rw [fire_other w i ev p (fun e he => h.only i e he hne)]
    exact h.pending
  · rw [fire_body]; exact h.node
  · intro j e hj hjk
    rw [fire_body] at hj
    exact h.only j e hj hjk

theorem owns_step (w : World) (p k : Nat) (a : Action) (h : Owns w p k)
    (ha : a.firesAt k = false) : Owns (step w a) p k := by
  cases a with
  | call => exact owns_call w p k h
  | fire i ev =>
    have hne : i ≠ k := by simpa [Action.firesAt] using ha
    exact owns_fire w p k i ev h hne
  | setGlobal g => exact ⟨h.wf, h.pending, h.node, h.only⟩

theorem owns_run (as : List Action) (w : World) (p k : Nat) (h : Owns w p k)
    (has : ∀ a ∈ as, a.firesAt k = false) : Owns (run w as) p k := by
  induction as generalizing w with
  | nil => exact h
  | cons a as ih =>
    have ha := has a (List.mem_cons_self a as)
    exact ih (step w a) (owns_step w p k a h ha) (fun b hb => has b (List.mem_cons_of_mem a hb))

/-! ## The presence check -/

/-- C1, as stated, fails: the binding `window.webgazer` exists and holds the
empty string, yet the call does not resolve with that value. The returned
operation is pending and a script node has been attached. -/
theorem loadWebGazer_existing_falsy_handle_not_reused :
    (freshPage (some (.str ""))).webgazer = some (.str "") ∧
    (loadWebGazer (freshPage (some (.str "")))).1.promises[
        (loadWebGazer (freshPage (some (.str "")))).2]? = some .pending ∧
    (loadWebGazer (freshPage (some (.str "")))).1.body = [scriptNode 0] ∧
    (loadWebGazer (freshPage (some (.str "")))).1.body
      ≠ (freshPage (some (.str ""))).body := by
  decide

/-- C1, amended: for every truthy value `h` that `window.webgazer` holds before
the call, the state right after the call has the returned operation resolved
with exactly `h`, the children of `document.body` are the same as before, and
so are the global and every older promise. -/
theorem loadWebGazer_truthy_handle_resolves_at_once (w : World) (h : JSVal)
    (hw : w.webgazer = some h) (ht : truthy h = true) :
    (loadWebGazer w).1.promises[(loadWebGazer w).2]? = some (.resolved h) ∧
    (loadWebGazer w).1.body = w.body ∧
    (loadWebGazer w).1.webgazer = w.webgazer ∧
    (loadWebGazer w).1.promises = w.promises ++ [.resolved h] := by
  have hr : readGlobal w = h := by simp [readGlobal, hw]
  have htr : truthy (readGlobal w) = true := by rw [hr]; exact ht
  rw [loadWebGazer_of_truthy w htr, hr]
  simp

/-- Scenario of C1: the handle pre-set to `"X"` resolves with `"X"` and no node
is attached. -/
theorem loadWebGazer_truthy_handle_resolves_at_once_witness :
    ((freshPage (some (.str "X"))).webgazer = some (.str "X") ∧ truthy (.str "X") = true) ∧
    ((loadWebGazer (freshPage (some (.str "X")))).1.promises[
        (loadWebGazer (freshPage (some (.str "X")))).2]? = some (.resolved (.str "X")) ∧
     (loadWebGazer (freshPage (some (.str "X")))).1.body = (freshPage (some (.str "X"))).body ∧
     (loadWebGazer (freshPage (some (.str "X")))).1.webgazer
       = (freshPage (some (.str "X"))).webgazer ∧
     (loadWebGazer (freshPage (some (.str "X")))).1.promises
       = (freshPage (some (.str "X"))).promises ++ [.resolved (.str "X")]) :=
  ⟨⟨rfl, by decide⟩,
    loadWebGazer_truthy_handle_resolves_at_once (freshPage (some (.str "X"))) (.str "X") rfl
      (by decide)⟩

/-- C2: when the binding `window.webgazer` does not exist, one call appends
exactly one node to `document.body` and leaves the nodes already there in
place; the node is a script element whose source is the fixed HTTPS URL and
whose async flag is set, and the returned operation is pending when the call
returns. -/
theorem loadWebGazer_absent_appends_one_script (w : World) (hw : w.webgazer = none) :
    ∃ node : Element,
      (loadWebGazer w).1.body = w.body ++ [node] ∧
      (loadWebGazer w).1.body.length = w.body.length + 1 ∧
      node.tagName = "script" ∧
      node.src = "https://webgazer.cs.brown.edu/webgazer.js" ∧
      node.async = true ∧
      (loadWebGazer w).1.promises[(loadWebGazer w).2]? = some .pending := by
  have ht : truthy (readGlobal w) = false := by simp [readGlobal, hw, truthy]
  refine ⟨scriptNode w.promises.length, ?_⟩
  rw [loadWebGazer_of_falsy w ht]
  simp [scriptNode, webgazerUrl]

/-- Scenario of C2 on a page with nothing attached. -/
theorem loadWebGazer_absent_appends_one_script_witness :
    (freshPage none).webgazer = none ∧
    ∃ node : Element,
      (loadWebGazer (freshPage none)).1.body = (freshPage none).body ++ [node] ∧
      (loadWebGazer (freshPage none)).1.body.length = (freshPage none).body.length + 1 ∧
      node.tagName = "script" ∧
      node.src = "https://webgazer.cs.brown.edu/webgazer.js" ∧
      node.async = true ∧
      (loadWebGazer (freshPage none)).1.promises[(loadWebGazer (freshPage none)).2]?
        = some .pending :=
  ⟨rfl, loadWebGazer_absent_appends_one_script (freshPage none) rfl⟩

/-- C9: the presence check is a truthiness test. A call attaches a node exactly
when the value read from `window.webgazer` is falsy; in that case it appends
the script node and returns a pending operation, and otherwise it resolves
with the value read and attaches nothing. Each of `undefined`, `null`, `false`,
`0`, `NaN` and the empty string, held by an existing binding, takes the
attaching branch. -/
theorem loadWebGazer_presence_check_is_truthiness (w : World) :
    ((loadWebGazer w).1.body ≠ w.body ↔ truthy (readGlobal w) = false) ∧
    (truthy (readGlobal w) = false →
      (loadWebGazer w).1.body = w.body ++ [scriptNode (loadWebGazer w).2] ∧
      (loadWebGazer w).1.promises[(loadWebGazer w).2]? = some .pending) ∧
    (truthy (readGlobal w) = true →
      (loadWebGazer w).1.body = w.body ∧
      (loadWebGazer w).1.promises[(loadWebGazer w).2]? = some (.resolved (readGlobal w))) ∧
    (∀ v ∈ listedFalsy, w.webgazer = some v →
      (loadWebGazer w).1.body = w.body ++ [scriptNode (loadWebGazer w).2] ∧
      (loadWebGazer w).1.promises[(loadWebGazer w).2]? = some .pending) := by
  have hF : truthy (readGlobal w) = false →
      (loadWebGazer w).1.body = w.body ++ [scriptNode (loadWebGazer w).2] ∧
      (loadWebGazer w).1.promises[(loadWebGazer w).2]? = some .pending := by
    intro ht
    rw [loadWebGazer_of_falsy w ht]
    simp
  have hT : truthy (readGlobal w) = true →
      (loadWebGazer w).1.body = w.body ∧
      (loadWebGazer w).1.promises[(loadWebGazer w).2]? = some (.resolved (readGlobal w)) := by
    intro ht
    rw [loadWebGazer_of_truthy w ht]
    simp
  refine ⟨?_, hF, hT, ?_⟩
  · cases ht : truthy (readGlobal w)
    · simp [(hF ht).1]
    · simp [(hT ht).1]
  · intro v hv hw
    apply hF
    have hr : readGlobal w = v := by simp [readGlobal, hw]
    rw [hr]
    simp only [listedFalsy, List.mem_cons, List.mem_singleton, List.not_mem_nil, or_false] at hv
    rcases hv with h | h | h | h | h | h <;> subst h <;> decide

/-- Scenarios of C9: a binding that exists and holds `0` takes the attaching
branch, and a binding that holds an object takes the resolving branch. -/
theorem loadWebGazer_presence_check_is_truthiness_witness :
    ((truthy (readGlobal (freshPage (some (.num 0)))) = false ∧
      JSVal.num 0 ∈ listedFalsy ∧ (freshPage (some (.num 0))).webgazer = some (.num 0)) ∧
     (loadWebGazer (freshPage (some (.num 0)))).1.body
       = (freshPage (some (.num 0))).body
          ++ [scriptNode (loadWebGazer (freshPage (some (.num 0)))).2] ∧
     (loadWebGazer (freshPage (some (.num 0)))).1.promises[
       (loadWebGazer (freshPage (some (.num 0)))).2]? = some .pending) ∧
    (truthy (readGlobal (freshPage (some (.obj 1)))) = true ∧
     (loadWebGazer (freshPage (some (.obj 1)))).1.body = (freshPage (some (.obj 1))).body ∧
     (loadWebGazer (freshPage (some (.obj 1)))).1.promises[
       (loadWebGazer (freshPage (some (.obj 1)))).2]?
       = some (.resolved (readGlobal (freshPage (some (.obj 1)))))) :=
  ⟨⟨⟨by decide, by decide, rfl⟩,
      (loadWebGazer_presence_check_is_truthiness (freshPage (some (.num 0)))).2.2.2
        (.num 0) (by decide) rfl⟩,
    ⟨by decide,
      (loadWebGazer_presence_check_is_truthiness (freshPage (some (.obj 1)))).2.2.1
        (by decide)⟩⟩

/-! ## Events of the script node -/

theorem loadWebGazer_snd (w : World) : (loadWebGazer w).2 = w.promises.length := by
  unfold loadWebGazer
  simp only
  split <;> rfl

theorem readGlobal_of_absent (w : World) (hw : w.webgazer = none) :
    truthy (readGlobal w) = false := by
  simp [readGlobal, hw, truthy]

theorem fire_own_load (w : World) (p k : Nat) (h : Owns w p k) :
    (fire w k .load).promises[p]? = some (.resolved (readGlobal w)) := by
  simp only [fire, h.node, scriptNode, runCallback, resolve]
  exact settle_pending w p _ h.pending

theorem fire_own_error (w : World) (p k : Nat) (e : JSVal) (h : Owns w p k) :
    (fire w k (.error e)).promises[p]? = some (.rejected e) := by
  simp only [fire, h.node, scriptNode, runCallback, reject]
  exact settle_pending w p _ h.pending

theorem owns_after_call_run (w : World) (as : List Action) (hwf : WellFormed w)
    (hw : w.webgazer = none) (has : ∀ a ∈ as, a.firesAt w.body.length = false) :
    Owns (run (loadWebGazer w).1 as) (loadWebGazer w).2 w.body.length := by
  rw [loadWebGazer_snd]
  exact owns_run as _ _ _ (owns_after_call w hwf (readGlobal_of_absent w hw)) has

/-- C3: after a call with the handle absent, and whatever else happens on the
page before the first event of the script node (further calls, events of other
nodes, changes of `window.webgazer`), the operation is still pending, and
delivering the load event resolves it with the value `window.webgazer` holds at
that moment: `g` when the binding holds `g`, and `undefined` when the binding
is still absent. -/
theorem load_event_resolves_with_global_at_event_time (w : World) (as : List Action)
    (g : Option JSVal) (hwf : WellFormed w) (hw : w.webgazer = none)
    (has : ∀ a ∈ as, a.firesAt w.body.length = false)
    (hg : (run (loadWebGazer w).1 as).webgazer = g) :
    (run (loadWebGazer w).1 as).promises[(loadWebGazer w).2]? = some .pending ∧
    (fire (run (loadWebGazer w).1 as) w.body.length .load).promises[(loadWebGazer w).2]?
      = some (.resolved (g.getD .undefined)) := by
  have ho := owns_after_call_run w as hwf hw has
  refine ⟨ho.pending, ?_⟩
  rw [fire_own_load _ _ _ ho, readGlobal, hg]

/-- Scenario of C3: the handle is absent at call time, the script sets it to
an object, and the load event resolves the operation with that object. -/
theorem load_event_resolves_with_global_at_event_time_witness :
    (WellFormed (freshPage none) ∧ (freshPage none).webgazer = none ∧
      (∀ a ∈ [Action.setGlobal (some (.obj 7))],
        a.firesAt (freshPage none).body.length = false) ∧
      (run (loadWebGazer (freshPage none)).1 [Action.setGlobal (some (.obj 7))]).webgazer
        = some (.obj 7)) ∧
    ((run (loadWebGazer (freshPage none)).1 [Action.setGlobal (some (.obj 7))]).promises[
        (loadWebGazer (freshPage none)).2]? = some .pending ∧
     (fire (run (loadWebGazer (freshPage none)).1 [Action.setGlobal (some (.obj 7))])
        (freshPage none).body.length .load).promises[(loadWebGazer (freshPage none)).2]?
       = some (.resolved ((some (JSVal.obj 7)).getD .undefined))) :=
  ⟨⟨wellFormed_freshPage none, rfl, by decide, rfl⟩,
    load_event_resolves_with_global_at_event_time (freshPage none)
      [Action.setGlobal (some (.obj 7))] (some (.obj 7)) (wellFormed_freshPage none) rfl
      (by decide) rfl⟩

/-- C4: after a call with the handle absent, and whatever else happens on the
page before the first event of the script node (including any change of
`window.webgazer`), delivering the error event with argument `E` rejects the
operation, and the rejection reason is `E` itself. -/
theorem error_event_rejects_with_its_argument (w : World) (as : List Action) (E : JSVal)
    (hwf : WellFormed w) (hw : w.webgazer = none)
    (has : ∀ a ∈ as, a.firesAt w.body.length = false) :
    (run (loadWebGazer w).1 as).promises[(loadWebGazer w).2]? = some .pending ∧
    (fire (run (loadWebGazer w).1 as) w.body.length (.error E)).promises[(loadWebGazer w).2]?
      = some (.rejected E) := by
  have ho := owns_after_call_run w as hwf hw has
  exact ⟨ho.pending, fire_own_error _ _ _ E ho⟩

/-- Scenario of C4: the error event arrives with the string `"E"` after the
global has been set by other code; the operation rejects with `"E"`. -/
theorem error_event_rejects_with_its_argument_witness :
    (WellFormed (freshPage none) ∧ (freshPage none).webgazer = none ∧
      (∀ a ∈ [Action.setGlobal (some (.obj 7))],
        a.firesAt (freshPage none).body.length = false)) ∧
    ((run (loadWebGazer (freshPage none)).1 [Action.setGlobal (some (.obj 7))]).promises[
        (loadWebGazer (freshPage none)).2]? = some .pending ∧
     (fire (run (loadWebGazer (freshPage none)).1 [Action.setGlobal (some (.obj 7))])
        (freshPage none).body.length (.error (.str "E"))).promises[
          (loadWebGazer (freshPage none)).2]?
       = some (.rejected (.str "E"))) :=
  ⟨⟨wellFormed_freshPage none, rfl, by decide⟩,
    error_event_rejects_with_its_argument (freshPage none)
      [Action.setGlobal (some (.obj 7))] (.str "E") (wellFormed_freshPage none) rfl
      (by decide)⟩

/-- C7: no timeout. After a call with the handle absent, in every state the
page reaches by further calls, events of other nodes and changes of
`window.webgazer`, as long as neither event of the operation's own script node
has been delivered, the operation is pending. -/
theorem pending_until_own_event (w : World) (as : List Action)
    (hwf : WellFormed w) (hw : w.webgazer = none)
    (has : ∀ a ∈ as, a.firesAt w.body.length = false) :
    (run (loadWebGazer w).1 as).promises[(loadWebGazer w).2]? = some .pending :=
  (owns_after_call_run w as hwf hw has).pending

/-- Scenario of C7: a second call, both events of the second node and a change
of the global leave the first operation pending. -/
theorem pending_until_own_event_witness :
    (WellFormed (freshPage none) ∧ (freshPage none).webgazer = none ∧
      (∀ a ∈ [Action.call, .fire 1 .load, .fire 1 (.error .null), .setGlobal (some (.obj 7)),
               .call],
        a.firesAt (freshPage none).body.length = false)) ∧
    (run (loadWebGazer (freshPage none)).1
        [Action.call, .fire 1 .load, .fire 1 (.error .null), .setGlobal (some (.obj 7)),
          .call]).promises[(loadWebGazer (freshPage none)).2]? = some .pending :=
  ⟨⟨wellFormed_freshPage none, rfl, by decide⟩,
    pending_until_own_event (freshPage none)
      [Action.call, .fire 1 .load, .fire 1 (.error .null), .setGlobal (some (.obj 7)), .call]
      (wellFormed_freshPage none) rfl (by decide)⟩

/-- C8: no retry. Delivering the error event to a script node attached by
`loadWebGazer` for operation `p` leaves the children of `document.body` and
`window.webgazer` as they were, creates no promise, and changes the state of no
operation other than `p`. -/
theorem error_event_changes_one_outcome_only (w : World) (i p : Nat) (E : JSVal)
    (hn : w.body[i]? = some (scriptNode p)) :
    (fire w i (.error E)).body = w.body ∧
    (fire w i (.error E)).webgazer = w.webgazer ∧
    (fire w i (.error E)).promises.length = w.promises.length ∧
    ∀ q, q ≠ p → (fire w i (.error E)).promises[q]? = w.promises[q]? := by
  refine ⟨fire_body w i _, fire_webgazer w i _, fire_length w i _, ?_⟩
  intro q hq
  apply fire_other
  intro e he
  rw [hn] at he
  cases he
  simp [scriptNode_targets, hq]

/-- Scenario of C8: two calls on an empty page, then the error event of the
first node. Both nodes stay attached, the global stays absent, and the second
operation keeps its state. -/
theorem error_event_changes_one_outcome_only_witness :
    (twoCalls (freshPage none)).body[0]? = some (scriptNode 0) ∧
    ((fire (twoCalls (freshPage none)) 0 (.error (.str "E"))).body
        = (twoCalls (freshPage none)).body ∧
     (fire (twoCalls (freshPage none)) 0 (.error (.str "E"))).webgazer
        = (twoCalls (freshPage none)).webgazer ∧
     (fire (twoCalls (freshPage none)) 0 (.error (.str "E"))).promises.length
        = (twoCalls (freshPage none)).promises.length ∧
     ∀ q, q ≠ 0 → (fire (twoCalls (freshPage none)) 0 (.error (.str "E"))).promises[q]?
        = (twoCalls (freshPage none)).promises[q]?) :=
  ⟨by decide,
    error_event_changes_one_outcome_only (twoCalls (freshPage none)) 0 0 (.str "E")
      (by decide)⟩

/-! ## Calls before the first one has settled -/

theorem twoCalls_eq (w : World) (hw : w.webgazer = none) :
    twoCalls w
      = { w with body := w.body ++ [scriptNode w.promises.length,
                                    scriptNode (w.promises.length + 1)],
                 promises := w.promises ++ [.pending, .pending] } := by
  have ht := readGlobal_of_absent w hw
  have ht1 : truthy (readGlobal (loadWebGazer w).1) = false := by
    rw [loadWebGazer_of_falsy w ht]
    exact ht
  unfold twoCalls
  rw [loadWebGazer_of_falsy _ ht1, loadWebGazer_of_falsy w ht]
  simp

theorem owns_first (w : World) (hwf : WellFormed w) (hw : w.webgazer = none) :
    Owns (twoCalls w) (firstOp w) w.body.length := by
  unfold twoCalls firstOp
  rw [loadWebGazer_snd]
  exact owns_call _ _ _ (owns_after_call w hwf (readGlobal_of_absent w hw))

theorem owns_second (w : World) (hwf : WellFormed w) (hw : w.webgazer = none) :
    Owns (twoCalls w) (secondOp w) (w.body.length + 1) := by
  have ht := readGlobal_of_absent w hw
  have ht1 : truthy (readGlobal (loadWebGazer w).1) = false := by
    rw [loadWebGazer_of_falsy w ht]
    exact ht
  have h := owns_after_call (loadWebGazer w).1 (wellFormed_call w hwf) ht1
  have hb : (loadWebGazer w).1.body.length = w.body.length + 1 := by
    simp [loadWebGazer_of_falsy w ht]
  rw [hb] at h
  unfold twoCalls secondOp
  rw [loadWebGazer_snd]
  exact h

theorem fire_own (w : World) (p k : Nat) (ev : Event) (h : Owns w p k) :
    (fire w k ev).promises[p]? = some (ev.outcome w) := by
  cases ev with
  | load => exact fire_own_load w p k h
  | error e => exact fire_own_error w p k e h

/-- C6: concurrent calls are not deduplicated. Two calls with the handle absent
and nothing in between attach two script nodes with the same fixed source, one
after the other; the two operations are distinct, and each node carries the
callbacks of its own operation. Whatever happens afterwards, an operation stays
pending as long as no event of its own node is delivered (events of the other
node included), and the first event of its own node settles it. -/
theorem concurrent_calls_not_deduplicated (w : World) (hwf : WellFormed w)
    (hw : w.webgazer = none) :
    (twoCalls w).body = w.body ++ [scriptNode (firstOp w), scriptNode (secondOp w)] ∧
    firstOp w ≠ secondOp w ∧
    (scriptNode (firstOp w)).src = "https://webgazer.cs.brown.edu/webgazer.js" ∧
    (scriptNode (secondOp w)).src = "https://webgazer.cs.brown.edu/webgazer.js" ∧
    (scriptNode (secondOp w)).onload = some (.resolveGlobal (secondOp w)) ∧
    (scriptNode (secondOp w)).onerror = some (.rejectWith (secondOp w)) ∧
    (∀ as : List Action, (∀ a ∈ as, a.firesAt w.body.length = false) →
      (run (twoCalls w) as).promises[firstOp w]? = some .pending ∧
      ∀ ev, (fire (run (twoCalls w) as) w.body.length ev).promises[firstOp w]?
        = some (ev.outcome (run (twoCalls w) as))) ∧
    (∀ as : List Action, (∀ a ∈ as, a.firesAt (w.body.length + 1) = false) →
      (run (twoCalls w) as).promises[secondOp w]? = some .pending ∧
      ∀ ev, (fire (run (twoCalls w) as) (w.body.length + 1) ev).promises[secondOp w]?
        = some (ev.outcome (run (twoCalls w) as))) := by
  have h1 : firstOp w = w.promises.length := loadWebGazer_snd w
  have h2 : secondOp w = w.promises.length + 1 := by
    unfold secondOp
    rw [loadWebGazer_snd, loadWebGazer_of_falsy w (readGlobal_of_absent w hw)]
    simp
  refine ⟨?_, ?_, rfl, rfl, rfl, rfl, ?_, ?_⟩
  · rw [twoCalls_eq w hw, h1, h2]
  · omega
  · intro as has
    have ho := owns_run as _ _ _ (owns_first w hwf hw) has
    exact ⟨ho.pending, fun ev => fire_own _ _ _ ev ho⟩
  · intro as has
    have ho := owns_run as _ _ _ (owns_second w hwf hw) has
    exact ⟨ho.pending, fun ev => fire_own _ _ _ ev ho⟩

/-- Scenario of C6 on an empty page: the load event of the second node and the
error event of the first node settle the two operations separately. -/
theorem concurrent_calls_not_deduplicated_witness :
    (WellFormed (freshPage none) ∧ (freshPage none).webgazer = none ∧
      (∀ a ∈ [Action.fire 1 .load], a.firesAt (freshPage none).body.length = false) ∧
      (∀ a ∈ [Action.fire 0 (.error (.str "E"))],
        a.firesAt ((freshPage none).body.length + 1) = false)) ∧
    (twoCalls (freshPage none)).body = [scriptNode 0, scriptNode 1] ∧
    (run (twoCalls (freshPage none)) [Action.fire 1 .load]).promises[
        firstOp (freshPage none)]? = some .pending ∧
    (run (twoCalls (freshPage none)) [Action.fire 0 (.error (.str "E"))]).promises[
        secondOp (freshPage none)]? = some .pending ∧
    (fire (run (twoCalls (freshPage none)) [Action.fire 1 .load]) 0
        (.error (.str "E"))).promises = [.rejected (.str "E"), .resolved .undefined] :=
  ⟨⟨wellFormed_freshPage none, rfl, by decide, by decide⟩,
    (concurrent_calls_not_deduplicated (freshPage none) (wellFormed_freshPage none) rfl).1,
    ((concurrent_calls_not_deduplicated (freshPage none) (wellFormed_freshPage none)
      rfl).2.2.2.2.2.2.1 [Action.fire 1 .load] (by decide)).1,
    ((concurrent_calls_not_deduplicated (freshPage none) (wellFormed_freshPage none)
      rfl).2.2.2.2.2.2.2 [Action.fire 0 (.error (.str "E"))] (by decide)).1,
    by decide⟩

/-! ## Reuse of a loaded handle -/

theorem loadedPage_eq (w : World) (h : JSVal) (hw : w.webgazer = none) :
    loadedPage w h
      = { webgazer := some h, body := w.body ++ [scriptNode w.promises.length],
          promises := w.promises ++ [.resolved h] } := by
  have ht := readGlobal_of_absent w hw
  simp only [loadedPage, run, List.foldl_cons, List.foldl_nil, step]
  rw [loadWebGazer_of_falsy w ht]
  simp [fire, scriptNode, runCallback, resolve, settle, readGlobal]

theorem furtherCalls_succ (w : World) (h : JSVal) (n : Nat) :
    furtherCalls w h (n + 1) = (loadWebGazer (furtherCalls w h n)).1 := by
  simp [furtherCalls, run, List.replicate_succ', List.foldl_append, step]

theorem furtherCalls_eq (w : World) (h : JSVal) (hw : w.webgazer = none)
    (ht : truthy h = true) (n : Nat) :
    furtherCalls w h n
      = { webgazer := some h, body := w.body ++ [scriptNode w.promises.length],
          promises := w.promises ++ .resolved h :: List.replicate n (.resolved h) } := by
  induction n with
  | zero => simp [furtherCalls, run, loadedPage_eq w h hw]
  | succ n ih =>
    rw [furtherCalls_succ, ih]
    have htr : truthy (readGlobal
        { webgazer := some h, body := w.body ++ [scriptNode w.promises.length],
          promises := w.promises ++ .resolved h :: List.replicate n (.resolved h) }) = true := by
      simpa [readGlobal] using ht
    rw [loadWebGazer_of_truthy _ htr]
    simp [readGlobal, List.replicate_succ']

/-- C5: the handle, once present, is reused. Start with the handle absent, call
`loadWebGazer` once, let the loaded script set `window.webgazer` to a handle
`h` (an object or any other truthy value) and deliver the load event of the
node. Then for every `n`, after `n` further calls the document holds the nodes
it started with and the one script node of the first call, and each further
call returns an operation that is resolved with `h` when the call returns and
is still resolved with `h` at the end. -/
theorem loaded_handle_is_reused (w : World) (h : JSVal) (n : Nat)
    (hw : w.webgazer = none) (ht : truthy h = true) :
    (furtherCalls w h n).body = w.body ++ [scriptNode (loadWebGazer w).2] ∧
    (furtherCalls w h n).body.length = w.body.length + 1 ∧
    ∀ j, j < n →
      (loadWebGazer (furtherCalls w h j)).1.promises[(loadWebGazer (furtherCalls w h j)).2]?
        = some (.resolved h) ∧
      (loadWebGazer (furtherCalls w h j)).1.body = (furtherCalls w h j).body ∧
      (furtherCalls w h n).promises[(loadWebGazer (furtherCalls w h j)).2]?
        = some (.resolved h) := by
  refine ⟨?_, ?_, ?_⟩
  · rw [furtherCalls_eq w h hw ht, loadWebGazer_snd]
  · rw [furtherCalls_eq w h hw ht]; simp
  · intro j hj
    have htr : truthy (readGlobal (furtherCalls w h j)) = true := by
      rw [furtherCalls_eq w h hw ht]; simpa [readGlobal] using ht
    have hr : readGlobal (furtherCalls w h j) = h := by
      rw [furtherCalls_eq w h hw ht]; rfl
    refine ⟨?_, ?_, ?_⟩
    · rw [loadWebGazer_of_truthy _ htr, hr]; simp
    · rw [loadWebGazer_of_truthy _ htr]
    · rw [loadWebGazer_snd, furtherCalls_eq w h hw ht n, furtherCalls_eq w h hw ht j]
      simp only [List.length_append, List.length_cons, List.length_replicate]
      rw [List.getElem?_append_right (by omega)]
      have hidx : w.promises.length + (j + 1) - w.promises.length = j + 1 := by omega
      rw [hidx, List.getElem?_cons_succ, List.getElem?_replicate]
      simp [hj]

/-- Scenario of C5 on an empty page: three further calls, one node, and the
third of them resolves with the object. -/
theorem loaded_handle_is_reused_witness :
    ((freshPage none).webgazer = none ∧ truthy (.obj 7) = true ∧ 2 < 3) ∧
    (furtherCalls (freshPage none) (.obj 7) 3).body = [scriptNode 0] ∧
    (furtherCalls (freshPage none) (.obj 7) 3).body.length = 1 ∧
    (loadWebGazer (furtherCalls (freshPage none) (.obj 7) 2)).1.promises[
        (loadWebGazer (furtherCalls (freshPage none) (.obj 7) 2)).2]? = some (.resolved (.obj 7)) :=
  ⟨⟨rfl, by decide, by decide⟩,
    (loaded_handle_is_reused (freshPage none) (.obj 7) 3 rfl (by decide)).1,
    (loaded_handle_is_reused (freshPage none) (.obj 7) 3 rfl (by decide)).2.1,
    ((loaded_handle_is_reused (freshPage none) (.obj 7) 3 rfl (by decide)).2.2 2
      (by decide)).1⟩

/-! ## Order of effects in the handle-absent branch -/

theorem frameAfter_of_le (w : World) (n : Nat) (h : 6 ≤ n) :
    frameAfter w n = frameAfter w 6 := by
  unfold frameAfter
  rw [List.take_of_length_le (by simpa [absentBranch] using h),
    List.take_of_length_le (by simp [absentBranch])]

theorem frameAfter_six (w : World) :
    frameAfter w 6
      = { world := { w with body := w.body ++ [scriptNode w.promises.length],
                            promises := w.promises ++ [.pending] },
          script := some (scriptNode w.promises.length) } := by
  simp [frameAfter, absentBranch, execAll, exec, Frame.assign, createElement, scriptNode]

theorem frameAfter_world_of_lt (w : World) (n : Nat) (h : n < 6) :
    (frameAfter w n).world = { w with promises := w.promises ++ [.pending] } := by
  have : n = 0 ∨ n = 1 ∨ n = 2 ∨ n = 3 ∨ n = 4 ∨ n = 5 := by omega
  rcases this with h | h | h | h | h | h <;> subst h <;>
    simp [frameAfter, absentBranch, execAll, exec, Frame.assign]

/-- C10: in the handle-absent branch the attachment comes last. A call with a
falsy global is the execution of the six statements of the branch. Before the
sixth statement the children of `document.body` are those from before the call,
so the node is not attached and delivering an event at its future position
does nothing; after the fifth statement the element bound to `script` already
has its source, async flag, load callback and error callback. From the sixth
statement on the node is attached with both callbacks, and either event
delivered to it settles the operation. At every point of the branch the
operation exists and is pending, and a node at the new position, if there is
one, has both callbacks of the operation registered. -/
theorem absent_branch_attaches_last (w : World) (n : Nat) :
    (truthy (readGlobal w) = false →
      loadWebGazer w = ((frameAfter w 6).world, w.promises.length)) ∧
    (n < 6 →
      (frameAfter w n).world.body = w.body ∧
      ∀ ev, fire (frameAfter w n).world w.body.length ev = (frameAfter w n).world) ∧
    (frameAfter w 5).script = some (scriptNode w.promises.length) ∧
    (6 ≤ n →
      (frameAfter w n).world.body = w.body ++ [scriptNode w.promises.length] ∧
      ∀ ev, (fire (frameAfter w n).world w.body.length ev).promises[w.promises.length]?
        = some (ev.outcome (frameAfter w n).world)) ∧
    (frameAfter w n).world.promises[w.promises.length]? = some .pending ∧
    (∀ e, (frameAfter w n).world.body[w.body.length]? = some e →
      e.src = "https://webgazer.cs.brown.edu/webgazer.js" ∧ e.async = true ∧
      e.onload = some (.resolveGlobal w.promises.length) ∧
      e.onerror = some (.rejectWith w.promises.length)) := by
  refine ⟨?_, ?_, ?_, ?_, ?_, ?_⟩
  · intro ht
    rw [loadWebGazer_of_falsy w ht, frameAfter_six]
  · intro hn
    rw [frameAfter_world_of_lt w n hn]
    refine ⟨rfl, fun ev => ?_⟩
    simp [fire]
  · simp [frameAfter, absentBranch, execAll, exec, Frame.assign, createElement, scriptNode]
  · intro hn
    rw [frameAfter_of_le w n hn, frameAfter_six]
    refine ⟨rfl, fun ev => ?_⟩
    cases ev <;>
      simp [fire, scriptNode, runCallback, resolve, reject, settle, Event.outcome]
  · rcases Nat.lt_or_ge n 6 with hn | hn
    · rw [frameAfter_world_of_lt w n hn]; simp
    · rw [frameAfter_of_le w n hn, frameAfter_six]; simp
  · intro e he
    rcases Nat.lt_or_ge n 6 with hn | hn
    · rw [frameAfter_world_of_lt w n hn] at he
      simp at he
    · rw [frameAfter_of_le w n hn, frameAfter_six] at he
      simp at he
      subst he
      simp [scriptNode, webgazerUrl]

/-- Scenario of C10 on an empty page: after five statements nothing is
attached, after six the node is attached with both callbacks. -/
theorem absent_branch_attaches_last_witness :
    (truthy (readGlobal (freshPage none)) = false ∧ 5 < 6 ∧ 6 ≤ 6 ∧
      (frameAfter (freshPage none) 6).world.body[(freshPage none).body.length]?
        = some (scriptNode 0)) ∧
    loadWebGazer (freshPage none) = ((frameAfter (freshPage none) 6).world, 0) ∧
    (frameAfter (freshPage none) 5).world.body = [] ∧
    (frameAfter (freshPage none) 6).world.body = [scriptNode 0] ∧
    (scriptNode 0).onload = some (.resolveGlobal 0) ∧
    (scriptNode 0).onerror = some (.rejectWith 0) :=
  ⟨⟨by decide, by decide, by decide, by decide⟩,
    (absent_branch_attaches_last (freshPage none) 6).1 (by decide),
    ((absent_branch_attaches_last (freshPage none) 5).2.1 (by decide)).1,
    ((absent_branch_attaches_last (freshPage none) 6).2.2.2.1 (by decide)).1,
    ((absent_branch_attaches_last (freshPage none) 6).2.2.2.2.2 (scriptNode 0)
      (by decide)).2.2.1,
    ((absent_branch_attaches_last (freshPage none) 6).2.2.2.2.2 (scriptNode 0)
      (by decide)).2.2.2⟩

end EyeGames
